import Mathlib

/-!
Shallow embedding of the scoreline-probability core of `sport_analyzer`:
the rate-builder and Dixon–Coles correction
(`analyzers/poisson_elo.py`, `analyzers/dixon_coles.py`) are modelled over ℝ
(they involve `exp`, `log` and real powers), while the outcome aggregation,
ensemble blending, confidence scoring and the classifier wrapper
(`analyzers/match_analyzer.py`, `models/ml_predictor.py`) are modelled over ℚ
so that concrete evaluations are decidable.  Machine floats are modelled as
exact arithmetic; Python `round(x, d)` is modelled as round-half-up on exact
values (ties, which Python resolves on the binary representation, do not
arise at any value considered below).
-/

namespace SportAnalyzer

/-- Python `round(q, d)`: round to `d` decimal places. -/
def roundQ (d : ℕ) (q : ℚ) : ℚ := (round (q * 10 ^ d) : ℤ) / 10 ^ d

/-- Python `t or 1.0` on a float `t`: `1.0` when `t` is zero (falsy),
otherwise `t` itself. -/
def orOne (t : ℚ) : ℚ := if t = 0 then 1 else t

/-- The result record of `analyzers.poisson_elo.PoissonResult`
(field order as in the dataclass). -/
structure PoissonResult where
  home_win : ℚ
  draw : ℚ
  away_win : ℚ
  lambda_h : ℚ
  lambda_a : ℚ
  total_exp : ℚ
  both_score : ℚ
  over_1_5 : ℚ
  over_2_5 : ℚ
  over_3_5 : ℚ
  deriving DecidableEq

/-- A `PoissonResult` carrying only the outcome triple (the remaining
dataclass fields keep their `0.0` defaults). -/
def mkTriple (h d a : ℚ) : PoissonResult := ⟨h, d, a, 0, 0, 0, 0, 0, 0, 0⟩

/-- Source `PoissonResult.best_outcome`: Python `max` over the list
`[("home_win", hw), ("draw", d), ("away_win", aw)]` with `key=lambda x: x[1]`
keeps the current element on ties and replaces it only on strictly greater
keys, folding left to right. -/
def best_outcome (r : PoissonResult) : String :=
  let b1 := if r.draw > r.home_win then ("draw", r.draw) else ("home_win", r.home_win)
  if r.away_win > b1.2 then "away_win" else b1.1

/-- Source `PoissonResult.best_prob`: `max(home_win, draw, away_win)`. -/
def best_prob (r : PoissonResult) : ℚ := max r.home_win (max r.draw r.away_win)

/-- The probability the record assigns to a named outcome. -/
def outcomeProb (r : PoissonResult) (s : String) : ℚ :=
  if s = "home_win" then r.home_win
  else if s = "draw" then r.draw
  else r.away_win

/-- Confidence labels; the source uses the strings
"🟢 Высокая" (high), "🟡 Средняя" (medium), "🔴 Низкая" (low). -/
inductive ConfLabel where
  | high : ConfLabel
  | medium : ConfLabel
  | low : ConfLabel
  deriving DecidableEq

/-- Source `analyzers.poisson_elo.confidence_level`:
`pct = round(best_prob * 100, 1)`, then label by `pct >= 60` / `pct >= 48`. -/
def confidence_level (r : PoissonResult) : ℚ × ConfLabel :=
  let pct := roundQ 1 (best_prob r * 100)
  (pct, if pct ≥ 60 then ConfLabel.high
        else if pct ≥ 48 then ConfLabel.medium
        else ConfLabel.low)

/-- The classifier probability triple consumed by `MatchAnalyzer._ensemble`
(keys "home_win"/"draw"/"away_win" of the dict built by
`MatchPredictor.predict`). -/
structure MlProbs where
  home_win : ℚ
  draw : ℚ
  away_win : ℚ
  deriving DecidableEq

/-- The dict returned by `MatchAnalyzer._ensemble`. -/
structure FinalProbs where
  home_win : ℚ
  draw : ℚ
  away_win : ℚ
  source : String
  deriving DecidableEq

/-- Source `MatchAnalyzer._ensemble`: pass the poisson triple through when no ML
result is available, otherwise blend 0.70/0.30, renormalize by the sum
(falling back to 1 when the sum is exactly 0, Python's `or 1.0`) and round
each component to 4 decimals. -/
def ensembleStep (p : PoissonResult) (ml : Option MlProbs) : FinalProbs :=
  match ml with
  | none => ⟨p.home_win, p.draw, p.away_win, "poisson+dc"⟩
  | some m =>
    let home := 0.70 * p.home_win + 0.30 * m.home_win
    let draw := 0.70 * p.draw + 0.30 * m.draw
    let away := 0.70 * p.away_win + 0.30 * m.away_win
    let tot := orOne (home + draw + away)
    ⟨roundQ 4 (home / tot), roundQ 4 (draw / tot), roundQ 4 (away / tot),
      "poisson+dc+ml"⟩

/-- Diagonal mass `matrix[indices, indices].sum()`. -/
def drawMass (M : ℕ → ℕ → ℚ) (n : ℕ) : ℚ :=
  ∑ i in Finset.range (n + 1), M i i

/-- Strictly-lower-triangular mass, `np.tril(matrix, k=-1).sum()`. -/
def homeMass (M : ℕ → ℕ → ℚ) (n : ℕ) : ℚ :=
  ∑ i in Finset.range (n + 1), ∑ j in Finset.range i, M i j

/-- Strictly-upper-triangular mass, `np.triu(matrix, k=1).sum()`. -/
def awayMass (M : ℕ → ℕ → ℚ) (n : ℕ) : ℚ :=
  ∑ i in Finset.range (n + 1), ∑ j in Finset.Ico (i + 1) (n + 1), M i j

/-- The shared outcome-aggregation pattern of `calculate_poisson`
(lines 119–129) and `MatchAnalyzer._apply_dc_correction`: draw mass from the
diagonal, home mass from the strictly lower triangle, away mass from the
strictly upper triangle, renormalized by the three-way sum with Python's
`or 1.0` zero fallback, each outcome rounded to 4 decimals. -/
def outcomeFromMatrix (M : ℕ → ℕ → ℚ) (n : ℕ) : ℚ × ℚ × ℚ :=
  let p_draw := drawMass M n
  let p_home := homeMass M n
  let p_away := awayMass M n
  let total := orOne (p_home + p_draw + p_away)
  (roundQ 4 (p_home / total), roundQ 4 (p_draw / total), roundQ 4 (p_away / total))

/-- Source `analyzers.poisson_elo._calc_over`: total mass of cells with
`i + j > threshold`, clipped to `[0, 1]`. -/
def calcOver (M : ℕ → ℕ → ℚ) (n : ℕ) (threshold : ℚ) : ℚ :=
  min (max (∑ i in Finset.range (n + 1), ∑ j in Finset.range (n + 1),
    if threshold < (i : ℚ) + (j : ℚ) then M i j else 0) 0) 1

/-- Source `analyzers.poisson_elo._calc_both_score`: inclusion–exclusion on the
zero row/column, floored at 0. -/
def calcBothScore (M : ℕ → ℕ → ℚ) (n : ℕ) : ℚ :=
  let p_home_0 := ∑ j in Finset.range (n + 1), M 0 j
  let p_away_0 := ∑ i in Finset.range (n + 1), M i 0
  max 0 (1 - p_home_0 - p_away_0 + M 0 0)

/-- Source `MatchAnalyzer._apply_dc_correction`: overwrite the outcome triple and
the totals/both-score fields of the poisson record from the Dixon–Coles
matrix, leaving the remaining fields untouched. -/
def applyDcCorrection (p : PoissonResult) (M : ℕ → ℕ → ℚ) (n : ℕ) : PoissonResult :=
  let t := outcomeFromMatrix M n
  ⟨t.1, t.2.1, t.2.2, p.lambda_h, p.lambda_a, p.total_exp,
    roundQ 4 (calcBothScore M n),
    roundQ 4 (calcOver M n 1.5), roundQ 4 (calcOver M n 2.5),
    roundQ 4 (calcOver M n 3.5)⟩

/-- Abstract result of invoking the pickled model inside
`MatchPredictor.predict`: either some step of the scaling/prediction raised
(`raises`, caught by the `except` clause) or the model produced a
probability row together with its `classes_` attribute. -/
inductive MLCall where
  | raises : MLCall
  | returns (probs : List ℚ) (classes : List ℤ) : MLCall
  deriving DecidableEq

/-- Models `probs[classes.index(c)] if c in classes else 0.33`; a lookup whose index
falls outside `probs` models the `IndexError` raised on a malformed
probability row (caught by `predict`, hence `none`). -/
def lookupProb (probs : List ℚ) (classes : List ℤ) (c : ℤ) : Option ℚ :=
  if c ∈ classes then probs.get? (classes.indexOf c) else some 0.33

/-- Source `MatchPredictor.predict`: `None` when untrained or the bundle is
missing; otherwise the try-block either raises (→ `None`) or builds the
outcome dict from the probability row. -/
def predictModel (is_trained : Bool) (bundle : Option MLCall) : Option MlProbs :=
  if ¬ is_trained ∨ bundle = none then none
  else match bundle with
    | none => none
    | some MLCall.raises => none
    | some (MLCall.returns probs classes) =>
      match lookupProb probs classes 0, lookupProb probs classes 1,
            lookupProb probs classes 2 with
      | some away, some draw, some home => some ⟨home, draw, away⟩
      | _, _, _ => none

/-- Lines 128–129 of `MatchAnalyzer.analyze_match`: the final blended triple
and the confidence pair; `confidence_level` is applied to the poisson
record, not to the blend. -/
def analyzeOutputs (p : PoissonResult) (ml : Option MlProbs) :
    FinalProbs × ℚ × ConfLabel :=
  (ensembleStep p ml, confidence_level p)

/-! ### Rate builder (`analyzers/poisson_elo.py`), over ℝ -/

/-- The inputs of `entities.base.TeamStats` read by `calculate_poisson`. -/
structure TeamStats where
  elo : ℝ
  form_score : ℝ
  avg_goals_scored : ℝ
  avg_goals_conceded : ℝ

/-- The input of `entities.base.WeatherData` read by `calculate_poisson`. -/
structure WeatherData where
  impact_score : ℝ

/-- The head-to-head dict as read by `calculate_poisson`
(`h2h.get("matches", 0)`, `h2h.get("home_win_pct", 50)`). -/
structure H2H where
  matchCount : ℕ
  home_win_pct : ℝ

/-- Module constant `_LEAGUE_AVG_HOME`. -/
def LEAGUE_AVG_HOME : ℝ := 1.50

/-- Module constant `_LEAGUE_AVG_AWAY`. -/
def LEAGUE_AVG_AWAY : ℝ := 1.15

/-- Module constant `_HOME_FIELD_K`. -/
def HOME_FIELD_K : ℝ := 1.10

/-- Models `np.clip(x, lo, hi)`. -/
def clip (x lo hi : ℝ) : ℝ := min (max x lo) hi

/-- Source `_elo_expected_home`: `1 / (1 + 10 ** ((elo_a - elo_h - 100) / 400))`. -/
noncomputable def elo_expected_home (elo_h elo_a : ℝ) : ℝ :=
  1 / (1 + (10 : ℝ) ^ ((elo_a - elo_h - 100) / 400))

/-- Source `_weather_home_factor`. -/
noncomputable def weather_home_factor (weather : WeatherData) : ℝ :=
  max 1.0 (HOME_FIELD_K - (weather.impact_score / 100.0) * (HOME_FIELD_K - 1.0))

/-- Source `_form_adjustment`. -/
noncomputable def form_adjustment (form_score : ℝ) : ℝ := 1.0 + (form_score - 50.0) / 500.0

/-- Lines 85–103 of `calculate_poisson`: the clipped pre-head-to-head
expected-goal rates. -/
noncomputable def lambdasClipped (home away : TeamStats) (weather : WeatherData)
    (neutral_field : Bool) : ℝ × ℝ :=
  let home_field := if neutral_field then 1.0 else weather_home_factor weather
  let elo_exp := elo_expected_home home.elo away.elo
  let elo_adj := 1.0 + (elo_exp - 0.5) * 0.30
  let form_adj_h := form_adjustment home.form_score
  let form_adj_a := form_adjustment away.form_score
  let attack_h := max home.avg_goals_scored 0.3 / LEAGUE_AVG_HOME
  let attack_a := max away.avg_goals_scored 0.3 / LEAGUE_AVG_AWAY
  let defense_h := max home.avg_goals_conceded 0.3 / LEAGUE_AVG_HOME
  let defense_a := max away.avg_goals_conceded 0.3 / LEAGUE_AVG_AWAY
  (clip (LEAGUE_AVG_HOME * attack_h * defense_a * home_field * elo_adj * form_adj_h)
      0.3 6.0,
   clip (LEAGUE_AVG_AWAY * attack_a * defense_h / home_field / elo_adj * form_adj_a)
      0.3 6.0)

/-- Lines 105–113 of `calculate_poisson`: the head-to-head nudge, applied to
the already-clipped rates. -/
noncomputable def lambdasFinal (home away : TeamStats) (weather : WeatherData)
    (h2h : H2H) (neutral_field : Bool) : ℝ × ℝ :=
  let l := lambdasClipped home away weather neutral_field
  if 3 ≤ h2h.matchCount then
    let rate := h2h.home_win_pct / 100.0
    let blend : ℝ := 0.12
    if rate > 0.55 then (l.1 * (1 + blend), l.2 * (1 - blend * 0.5))
    else if rate < 0.35 then (l.1 * (1 - blend), l.2 * (1 + blend * 0.5))
    else l
  else l

/-- Python `round(x, d)` over ℝ (the 2-decimal reporting rounding of the
returned `lambda_h`/`lambda_a` fields). -/
noncomputable def roundR (d : ℕ) (x : ℝ) : ℝ := (round (x * 10 ^ d) : ℤ) / 10 ^ d

/-- The `lambda_h`/`lambda_a` fields of the record returned by
`calculate_poisson`: the post-nudge rates rounded to 2 decimals. -/
noncomputable def calculate_poisson_lambdas (home away : TeamStats)
    (weather : WeatherData) (h2h : H2H) (neutral_field : Bool) : ℝ × ℝ :=
  let l := lambdasFinal home away weather h2h neutral_field
  (roundR 2 l.1, roundR 2 l.2)

/-! ### Dixon–Coles correction (`analyzers/dixon_coles.py`), over ℝ -/

/-- Source `analyzers.poisson_elo._pmf_array` at cell `k`: the Poisson mass
`lam^k · e^(-lam) / k!` with `lam` floored at `1e-9` (the code computes it
in log-space; in exact arithmetic the two agree). -/
noncomputable def pmfCell (lam : ℝ) (k : ℕ) : ℝ :=
  (max lam 1e-9) ^ k * Real.exp (-(max lam 1e-9)) / (Nat.factorial k)

/-- The raw independent-Poisson outer-product matrix
`np.outer(pmf_h, pmf_a)`. -/
noncomputable def rawMatrix (lambda_h lambda_a : ℝ) (i j : ℕ) : ℝ :=
  pmfCell lambda_h i * pmfCell lambda_a j

/-- Source `dixon_coles._tau`: the low-score correction factor. -/
def tau (x y : ℕ) (lam_h lam_a rho : ℝ) : ℝ :=
  if x = 0 ∧ y = 0 then 1 - lam_h * lam_a * rho
  else if x = 0 ∧ y = 1 then 1 + lam_h * rho
  else if x = 1 ∧ y = 0 then 1 + lam_a * rho
  else if x = 1 ∧ y = 1 then 1 - rho
  else 1.0

/-- The matrix after the tau-correction loop of `build_dc_matrix`
(`for x in range(min(2, max_goals+1)) ... matrix[x,y] = max(0.0, m*corr)`),
before renormalization. -/
noncomputable def correctedMatrix (lambda_h lambda_a : ℝ) (max_goals : ℕ)
    (rho : ℝ) (i j : ℕ) : ℝ :=
  if i < min 2 (max_goals + 1) ∧ j < min 2 (max_goals + 1) then
    max 0.0 (rawMatrix lambda_h lambda_a i j * tau i j lambda_h lambda_a rho)
  else rawMatrix lambda_h lambda_a i j

/-- Total `matrix.sum()` after the correction loop. -/
noncomputable def correctedTotal (lambda_h lambda_a : ℝ) (max_goals : ℕ)
    (rho : ℝ) : ℝ :=
  ∑ i in Finset.range (max_goals + 1), ∑ j in Finset.range (max_goals + 1),
    correctedMatrix lambda_h lambda_a max_goals rho i j

/-- Source `dixon_coles.build_dc_matrix`: tau-correct the raw matrix, then divide
by the new total when it is positive. -/
noncomputable def build_dc_matrix (lambda_h lambda_a : ℝ) (max_goals : ℕ)
    (rho : ℝ) (i j : ℕ) : ℝ :=
  if 0 < correctedTotal lambda_h lambda_a max_goals rho then
    correctedMatrix lambda_h lambda_a max_goals rho i j /
      correctedTotal lambda_h lambda_a max_goals rho
  else correctedMatrix lambda_h lambda_a max_goals rho i j

/-- The total mass of the raw (uncorrected) truncated matrix. -/
noncomputable def rawTotal (lambda_h lambda_a : ℝ) (max_goals : ℕ) : ℝ :=
  ∑ i in Finset.range (max_goals + 1), ∑ j in Finset.range (max_goals + 1),
    rawMatrix lambda_h lambda_a i j

/-- A valid 11×11 scoreline matrix (non-negative entries summing to 1)
whose three outcome masses round adversarially at 4 decimals. -/
def advMatrix : ℕ → ℕ → ℚ := fun i j =>
  if i = 0 ∧ j = 0 then 0.333351
  else if i = 1 ∧ j = 0 then 0.333351
  else if i = 0 ∧ j = 1 then 0.333298
  else 0

/-- The all-zero matrix (degenerate aggregation input). -/
def zeroMatrix : ℕ → ℕ → ℚ := fun _ _ => 0

/-! ## Theorems -/

/-- Evaluation rule for `roundQ` at a concrete argument. -/
lemma roundQ_eq_of (d : ℕ) (q : ℚ) (n : ℤ)
    (h1 : (n : ℚ) ≤ q * 10 ^ d + 1 / 2) (h2 : q * 10 ^ d + 1 / 2 < n + 1) :
    roundQ d q = (n : ℚ) / 10 ^ d := by
  unfold roundQ
  rw [round_eq, Int.floor_eq_iff.mpr ⟨h1, by exact_mod_cast h2⟩]

/-- Rounding to `d` decimals moves a rational by at most half a unit in the
last place. -/
lemma abs_roundQ_sub_le (d : ℕ) (q : ℚ) : |roundQ d q - q| ≤ 1 / (2 * 10 ^ d) := by
  have h10 : (0 : ℚ) < 10 ^ d := by positivity
  have hrw : roundQ d q - q = ((round (q * 10 ^ d) : ℚ) - q * 10 ^ d) / 10 ^ d := by
    unfold roundQ
    field_simp
    ring
  rw [hrw, abs_div, abs_of_pos h10]
  rw [div_le_div_iff₀ h10 (by positivity)]
  have hb : |(round (q * 10 ^ d) : ℚ) - q * 10 ^ d| ≤ 1 / 2 := by
    rw [abs_sub_comm]
    exact abs_sub_round (q * 10 ^ d)
  nlinarith [abs_nonneg ((round (q * 10 ^ d) : ℚ) - q * 10 ^ d)]

/-- Rounding fixes 0. -/
lemma roundQ_zero (d : ℕ) : roundQ d 0 = 0 := by
  unfold roundQ
  simp

/-- C5 (counterexample): in an evaluation where an ML triple is blended, the
reported confidence (computed from the base poisson triple) differs from
100 × the maximum of the final blended triple; moreover a best probability
of 0.5999 rounds to 60.0 and is labelled high (the claim says medium), and
0.4799 rounds to 48.0 and is labelled medium (the claim says low). -/
theorem C5_counterexample :
    (analyzeOutputs (mkTriple 0.5 0.3 0.2) (some ⟨0.2, 0.3, 0.5⟩)).2.1 ≠
      roundQ 1 (100 *
        max (analyzeOutputs (mkTriple 0.5 0.3 0.2) (some ⟨0.2, 0.3, 0.5⟩)).1.home_win
          (max (analyzeOutputs (mkTriple 0.5 0.3 0.2) (some ⟨0.2, 0.3, 0.5⟩)).1.draw
            (analyzeOutputs (mkTriple 0.5 0.3 0.2) (some ⟨0.2, 0.3, 0.5⟩)).1.away_win)) ∧
    (confidence_level (mkTriple 0.5999 0.24 0.1601)).2 = ConfLabel.high ∧
    (confidence_level (mkTriple 0.4799 0.3 0.2201)).2 = ConfLabel.medium := by
  have e1 : ensembleStep (mkTriple 0.5 0.3 0.2) (some ⟨0.2, 0.3, 0.5⟩) =
      ⟨0.41, 0.3, 0.29, "poisson+dc+ml"⟩ := by
    have h1 : roundQ 4 (41 / 100) = 41 / 100 := by
      rw [roundQ_eq_of 4 (41 / 100) 4100 (by norm_num) (by norm_num)]; norm_num
    have h2 : roundQ 4 (3 / 10) = 3 / 10 := by
      rw [roundQ_eq_of 4 (3 / 10) 3000 (by norm_num) (by norm_num)]; norm_num
    have h3 : roundQ 4 (29 / 100) = 29 / 100 := by
      rw [roundQ_eq_of 4 (29 / 100) 2900 (by norm_num) (by norm_num)]; norm_num
    simp only [ensembleStep, mkTriple, orOne]
    norm_num [h1, h2, h3]
  have e2 : confidence_level (mkTriple 0.5 0.3 0.2) = (50, ConfLabel.medium) := by
    have h : roundQ 1 (50 : ℚ) = 50 := by
      rw [roundQ_eq_of 1 50 500 (by norm_num) (by norm_num)]; norm_num
    simp only [confidence_level, best_prob, mkTriple]
    norm_num [h]
  have e3 : confidence_level (mkTriple 0.5999 0.24 0.1601) = (60, ConfLabel.high) := by
    have h : roundQ 1 (5999 / 100) = 60 := by
      rw [roundQ_eq_of 1 (5999 / 100) 600 (by norm_num) (by norm_num)]; norm_num
    simp only [confidence_level, best_prob, mkTriple]
    norm_num [h]
  have e4 : confidence_level (mkTriple 0.4799 0.3 0.2201) = (48, ConfLabel.medium) := by
    have h : roundQ 1 (4799 / 100) = 48 := by
      rw [roundQ_eq_of 1 (4799 / 100) 480 (by norm_num) (by norm_num)]; norm_num
    simp only [confidence_level, best_prob, mkTriple]
    norm_num [h]
  have e5 : roundQ 1 (41 : ℚ) = 41 := by
    rw [roundQ_eq_of 1 41 410 (by norm_num) (by norm_num)]; norm_num
  refine ⟨?_, by simp [e3], by simp [e4]⟩
  simp only [analyzeOutputs, e1, e2]
  norm_num [e5]

/-- C5 (amended): the confidence pair is computed by `confidence_level` from
the base (matrix-derived) poisson triple, not from the blended final triple;
the percentage is 100 × the base best probability rounded to 1 decimal, and
the label is high iff the rounded percentage is ≥ 60, medium iff it is in
[48, 60), low otherwise. -/
theorem C5_confidence_spec (p : PoissonResult) (ml : Option MlProbs) :
    (analyzeOutputs p ml).2 = confidence_level p ∧
    (confidence_level p).1 = roundQ 1 (best_prob p * 100) ∧
    ((confidence_level p).2 = ConfLabel.high ↔ 60 ≤ (confidence_level p).1) ∧
    ((confidence_level p).2 = ConfLabel.medium ↔
      48 ≤ (confidence_level p).1 ∧ (confidence_level p).1 < 60) ∧
    ((confidence_level p).2 = ConfLabel.low ↔ (confidence_level p).1 < 48) := by
  refine ⟨rfl, rfl, ?_, ?_, ?_⟩ <;>
    · unfold confidence_level
      dsimp only
      split_ifs with h1 h2 <;> simp_all <;> linarith

/-- C6 (counterexample): with a classifier triple supplied, the final home
component is the renormalized blend rounded to 4 decimals, which differs
from the exact renormalized blend (0.33333 reported as 0.3333). -/
theorem C6_counterexample :
    (ensembleStep (mkTriple 0.3333 0.3333 0.3334) (some ⟨0.3334, 0.3333, 0.3333⟩)).home_win ≠
      (0.70 * (0.3333 : ℚ) + 0.30 * 0.3334) /
        (0.70 * 0.3333 + 0.30 * 0.3334 + (0.70 * 0.3333 + 0.30 * 0.3333)
          + (0.70 * 0.3334 + 0.30 * 0.3333)) := by
  have h1 : roundQ 4 (33333 / 100000) = 3333 / 10000 := by
    rw [roundQ_eq_of 4 (33333 / 100000) 3333 (by norm_num) (by norm_num)]; norm_num
  simp only [ensembleStep, mkTriple, orOne]
  norm_num [h1]

/-- C6 (amended): with a classifier triple, the final triple is the
0.70/0.30 convex blend renormalized by its sum and rounded to 4 decimals
per component, tagged "poisson+dc+ml"; with no classifier triple the
matrix-derived triple passes through unchanged, tagged "poisson+dc". -/
theorem C6_ensemble_blend (p : PoissonResult) (m : MlProbs)
    (h : 0.70 * p.home_win + 0.30 * m.home_win + (0.70 * p.draw + 0.30 * m.draw)
        + (0.70 * p.away_win + 0.30 * m.away_win) ≠ 0) :
    ensembleStep p (some m) =
      ⟨roundQ 4 ((0.70 * p.home_win + 0.30 * m.home_win) /
          (0.70 * p.home_win + 0.30 * m.home_win + (0.70 * p.draw + 0.30 * m.draw)
            + (0.70 * p.away_win + 0.30 * m.away_win))),
       roundQ 4 ((0.70 * p.draw + 0.30 * m.draw) /
          (0.70 * p.home_win + 0.30 * m.home_win + (0.70 * p.draw + 0.30 * m.draw)
            + (0.70 * p.away_win + 0.30 * m.away_win))),
       roundQ 4 ((0.70 * p.away_win + 0.30 * m.away_win) /
          (0.70 * p.home_win + 0.30 * m.home_win + (0.70 * p.draw + 0.30 * m.draw)
            + (0.70 * p.away_win + 0.30 * m.away_win))),
       "poisson+dc+ml"⟩ ∧
    ensembleStep p none = ⟨p.home_win, p.draw, p.away_win, "poisson+dc"⟩ := by
  refine ⟨?_, rfl⟩
  simp only [ensembleStep, orOne, if_neg h]

/-- C6 (witness): the ensemble blend at the spec example — matrix triple
(0.40, 0.30, 0.30) with classifier triple (0.50, 0.20, 0.30) yields
(0.43, 0.27, 0.30). -/
theorem C6_witness :
    (0.70 * (0.4 : ℚ) + 0.30 * 0.5 + (0.70 * 0.3 + 0.30 * 0.2)
        + (0.70 * 0.3 + 0.30 * 0.3) ≠ 0) ∧
    ensembleStep (mkTriple 0.4 0.3 0.3) (some ⟨0.5, 0.2, 0.3⟩) =
      ⟨0.43, 0.27, 0.3, "poisson+dc+ml"⟩ := by
  refine ⟨by norm_num, ?_⟩
  have h := (C6_ensemble_blend (mkTriple 0.4 0.3 0.3) ⟨0.5, 0.2, 0.3⟩
    (by norm_num [mkTriple])).1
  rw [h]
  have h1 : roundQ 4 (43 / 100) = 43 / 100 := by
    rw [roundQ_eq_of 4 (43 / 100) 4300 (by norm_num) (by norm_num)]; norm_num
  have h2 : roundQ 4 (27 / 100) = 27 / 100 := by
    rw [roundQ_eq_of 4 (27 / 100) 2700 (by norm_num) (by norm_num)]; norm_num
  have h3 : roundQ 4 (3 / 10) = 3 / 10 := by
    rw [roundQ_eq_of 4 (3 / 10) 3000 (by norm_num) (by norm_num)]; norm_num
  simp only [mkTriple]
  norm_num [h1, h2, h3]

/-- Each 4-decimal rounding moves a component by at most 5e-5, so a triple
with exact sum 1 has rounded sum within 1.5e-4 of 1. -/
lemma abs_roundQ_triple_sub_one (x1 x2 x3 : ℚ) (hsum : x1 + x2 + x3 = 1) :
    |roundQ 4 x1 + roundQ 4 x2 + roundQ 4 x3 - 1| ≤ 3 / 20000 := by
  have b1 := abs_le.mp (abs_roundQ_sub_le 4 x1)
  have b2 := abs_le.mp (abs_roundQ_sub_le 4 x2)
  have b3 := abs_le.mp (abs_roundQ_sub_le 4 x3)
  rw [abs_le]
  norm_num at b1 b2 b3 ⊢
  constructor <;> linarith

/-- Diagonal mass of the adversarial matrix. -/
lemma advMatrix_drawMass : drawMass advMatrix 10 = 0.333351 := by
  simp [drawMass, Finset.sum_range_succ, advMatrix]

/-- Lower-triangular mass of the adversarial matrix. -/
lemma advMatrix_homeMass : homeMass advMatrix 10 = 0.333351 := by
  simp [homeMass, Finset.sum_range_succ, advMatrix]

/-- Upper-triangular mass of the adversarial matrix. -/
lemma advMatrix_awayMass : awayMass advMatrix 10 = 0.333298 := by
  simp [awayMass, Finset.sum_Ico_eq_sum_range, Finset.sum_range_succ, advMatrix]

/-- The adversarial matrix is a probability matrix: its entries total 1. -/
lemma advMatrix_total :
    (∑ i in Finset.range 11, ∑ j in Finset.range 11, advMatrix i j) = 1 := by
  simp [Finset.sum_range_succ, advMatrix]
  norm_num

/-- C7 (counterexample): a valid scoreline matrix (entries sum to 1) on
which the 4-decimal-rounded base triple sums to 1.0001, violating the 1e-6
tolerance. -/
theorem C7_counterexample :
    ¬ |(applyDcCorrection (mkTriple 0 0 0) advMatrix 10).home_win
        + (applyDcCorrection (mkTriple 0 0 0) advMatrix 10).draw
        + (applyDcCorrection (mkTriple 0 0 0) advMatrix 10).away_win - 1| ≤ 1 / 1000000 ∧
    (∑ i in Finset.range 11, ∑ j in Finset.range 11, advMatrix i j) = 1 := by
  refine ⟨?_, advMatrix_total⟩
  have r1 : roundQ 4 (333351 / 1000000) = 3334 / 10000 := by
    rw [roundQ_eq_of 4 (333351 / 1000000) 3334 (by norm_num) (by norm_num)]; norm_num
  have r2 : roundQ 4 (166649 / 500000) = 3333 / 10000 := by
    rw [roundQ_eq_of 4 (166649 / 500000) 3333 (by norm_num) (by norm_num)]; norm_num
  simp only [applyDcCorrection, outcomeFromMatrix, orOne,
    advMatrix_drawMass, advMatrix_homeMass, advMatrix_awayMass]
  norm_num [r1, r2]
  rw [abs_of_pos (by norm_num : (0 : ℚ) < 1 / 10000)]
  norm_num

/-- C7 (amended): when the outcome masses (resp. the blend components) have
non-zero sum, the exact triples sum to exactly 1 before rounding, so the
4-decimal-rounded base and final triples each sum to 1 within 1.5e-4
(3/20000) — not within 1e-6. -/
theorem C7_rounded_sums (M : ℕ → ℕ → ℚ) (n : ℕ) (p : PoissonResult)
    (p2 : PoissonResult) (m : MlProbs)
    (hM : homeMass M n + drawMass M n + awayMass M n ≠ 0)
    (hB : 0.70 * p2.home_win + 0.30 * m.home_win + (0.70 * p2.draw + 0.30 * m.draw)
        + (0.70 * p2.away_win + 0.30 * m.away_win) ≠ 0) :
    |(applyDcCorrection p M n).home_win + (applyDcCorrection p M n).draw
      + (applyDcCorrection p M n).away_win - 1| ≤ 3 / 20000 ∧
    |(ensembleStep p2 (some m)).home_win + (ensembleStep p2 (some m)).draw
      + (ensembleStep p2 (some m)).away_win - 1| ≤ 3 / 20000 := by
  constructor
  · simp only [applyDcCorrection, outcomeFromMatrix, orOne, if_neg hM]
    apply abs_roundQ_triple_sub_one
    rw [div_add_div_same, div_add_div_same]
    exact div_self hM
  · simp only [ensembleStep, orOne, if_neg hB]
    apply abs_roundQ_triple_sub_one
    rw [div_add_div_same, div_add_div_same]
    exact div_self hB

/-- C7 (witness): the rounded-sum bound instantiated at a concrete matrix
and a concrete blend. -/
theorem C7_witness :
    (homeMass advMatrix 10 + drawMass advMatrix 10 + awayMass advMatrix 10 ≠ 0) ∧
    (0.70 * (0.5 : ℚ) + 0.30 * 0.2 + (0.70 * 0.3 + 0.30 * 0.3)
        + (0.70 * 0.2 + 0.30 * 0.5) ≠ 0) ∧
    |(applyDcCorrection (mkTriple 0 0 0) advMatrix 10).home_win
      + (applyDcCorrection (mkTriple 0 0 0) advMatrix 10).draw
      + (applyDcCorrection (mkTriple 0 0 0) advMatrix 10).away_win - 1| ≤ 3 / 20000 ∧
    |(ensembleStep (mkTriple 0.5 0.3 0.3) (some ⟨0.2, 0.3, 0.5⟩)).home_win
      + (ensembleStep (mkTriple 0.5 0.3 0.3) (some ⟨0.2, 0.3, 0.5⟩)).draw
      + (ensembleStep (mkTriple 0.5 0.3 0.3) (some ⟨0.2, 0.3, 0.5⟩)).away_win - 1|
      ≤ 3 / 20000 := by
  have hM : homeMass advMatrix 10 + drawMass advMatrix 10 + awayMass advMatrix 10 ≠ 0 := by
    rw [advMatrix_homeMass, advMatrix_drawMass, advMatrix_awayMass]; norm_num
  have hB : 0.70 * (mkTriple 0.5 0.3 0.3).home_win + 0.30 * (⟨0.2, 0.3, 0.5⟩ : MlProbs).home_win
      + (0.70 * (mkTriple 0.5 0.3 0.3).draw + 0.30 * (⟨0.2, 0.3, 0.5⟩ : MlProbs).draw)
      + (0.70 * (mkTriple 0.5 0.3 0.3).away_win + 0.30 * (⟨0.2, 0.3, 0.5⟩ : MlProbs).away_win)
      ≠ 0 := by
    simp only [mkTriple]; norm_num
  have h := C7_rounded_sums advMatrix 10 (mkTriple 0 0 0) (mkTriple 0.5 0.3 0.3)
    ⟨0.2, 0.3, 0.5⟩ hM hB
  exact ⟨hM, by norm_num, h.1, h.2⟩

/-- C8: whenever the classifier is untrained, its bundle is missing, the
underlying model call raises, or the probability row is malformed (a class
index falls outside the row), `predict` yields `None` and the evaluation
completes with the matrix-only triple — a classifier failure never aborts
the evaluation. -/
theorem C8_classifier_failure_fallback (p : PoissonResult) (trained : Bool)
    (bundle : Option MLCall)
    (h : trained = false ∨ bundle = none ∨ bundle = some MLCall.raises ∨
      ∃ probs classes, bundle = some (MLCall.returns probs classes) ∧
        (lookupProb probs classes 0 = none ∨ lookupProb probs classes 1 = none ∨
         lookupProb probs classes 2 = none)) :
    predictModel trained bundle = none ∧
    analyzeOutputs p (predictModel trained bundle) =
      (⟨p.home_win, p.draw, p.away_win, "poisson+dc"⟩, confidence_level p) := by
  have hnone : predictModel trained bundle = none := by
    rcases h with h | h | h | ⟨probs, classes, hb, hl⟩
    · simp [predictModel, h]
    · simp [predictModel, h]
    · cases trained <;> simp [predictModel, h]
    · cases trained with
      | false => simp [predictModel]
      | true =>
        subst hb
        rcases hl with h0 | h1 | h2
        · simp [predictModel, h0]
        · cases hfst : lookupProb probs classes 0 <;>
            simp [predictModel, hfst, h1]
        · cases hfst : lookupProb probs classes 0 <;>
            cases hsnd : lookupProb probs classes 1 <;>
            simp [predictModel, hfst, hsnd, h2]
  rw [hnone]
  exact ⟨rfl, rfl⟩

/-- C8 (witness): untrained predictor, raising model and too-short
probability row all yield `None`, and the untrained evaluation returns the
matrix-only triple. -/
theorem C8_witness :
    predictModel false none = none ∧
    predictModel true (some MLCall.raises) = none ∧
    predictModel true (some (MLCall.returns [0.2] [0, 1, 2])) = none ∧
    analyzeOutputs (mkTriple 0.5 0.3 0.2) (predictModel false none) =
      (⟨0.5, 0.3, 0.2, "poisson+dc"⟩, confidence_level (mkTriple 0.5 0.3 0.2)) := by
  refine ⟨(C8_classifier_failure_fallback (mkTriple 0.5 0.3 0.2) false none (Or.inl rfl)).1,
    (C8_classifier_failure_fallback (mkTriple 0.5 0.3 0.2) true (some MLCall.raises)
      (Or.inr (Or.inr (Or.inl rfl)))).1,
    (C8_classifier_failure_fallback (mkTriple 0.5 0.3 0.2) true
      (some (MLCall.returns [0.2] [0, 1, 2]))
      (Or.inr (Or.inr (Or.inr ⟨[0.2], [0, 1, 2], rfl, Or.inr (Or.inl ?_)⟩)))).1,
    (C8_classifier_failure_fallback (mkTriple 0.5 0.3 0.2) false none (Or.inl rfl)).2⟩
  simp [lookupProb]

/-- C9: Python's `max` keeps the earliest maximal element, so ties resolve
in the order home_win, draw, away_win (a three-way tie reports home_win),
and the probability of the reported best outcome always equals
`best_prob`. -/
theorem C9_best_outcome_ties (r : PoissonResult) :
    outcomeProb r (best_outcome r) = best_prob r ∧
    (r.draw ≤ r.home_win ∧ r.away_win ≤ r.home_win → best_outcome r = "home_win") ∧
    (r.home_win < r.draw ∧ r.away_win ≤ r.draw → best_outcome r = "draw") ∧
    (r.home_win < r.away_win ∧ r.draw < r.away_win → best_outcome r = "away_win") ∧
    (r.home_win = r.draw ∧ r.draw = r.away_win → best_outcome r = "home_win") := by
  by_cases h1 : r.draw > r.home_win
  · by_cases h2 : r.away_win > r.draw
    · have hb : best_outcome r = "away_win" := by simp [best_outcome, h1, h2]
      have hp : outcomeProb r (best_outcome r) = r.away_win := by
        rw [hb]; simp [outcomeProb]
      refine ⟨?_, ?_, ?_, ?_, ?_⟩
      · rw [hp]; simp only [best_prob, max_def]; split_ifs <;> linarith
      · intro hc; exfalso; linarith [hc.1, hc.2]
      · intro hc; exfalso; linarith [hc.2]
      · intro hc; exact hb
      · intro hc; exfalso; linarith [hc.1]
    · have hb : best_outcome r = "draw" := by simp [best_outcome, h1, h2]
      have hp : outcomeProb r (best_outcome r) = r.draw := by
        rw [hb]; simp [outcomeProb]
      refine ⟨?_, ?_, ?_, ?_, ?_⟩
      · rw [hp]; simp only [best_prob, max_def]; split_ifs <;> linarith
      · intro hc; exfalso; linarith [hc.1]
      · intro hc; exact hb
      · intro hc; exfalso; push_neg at h2; linarith [hc.2]
      · intro hc; exfalso; linarith [hc.1]
  · by_cases h2 : r.away_win > r.home_win
    · have hb : best_outcome r = "away_win" := by simp [best_outcome, h1, h2]
      have hp : outcomeProb r (best_outcome r) = r.away_win := by
        rw [hb]; simp [outcomeProb]
      push_neg at h1
      refine ⟨?_, ?_, ?_, ?_, ?_⟩
      · rw [hp]; simp only [best_prob, max_def]; split_ifs <;> linarith
      · intro hc; exfalso; linarith [hc.2]
      · intro hc; exfalso; linarith [hc.1]
      · intro hc; exact hb
      · intro hc; exfalso; linarith [hc.1, hc.2]
    · have hb : best_outcome r = "home_win" := by simp [best_outcome, h1, h2]
      have hp : outcomeProb r (best_outcome r) = r.home_win := by
        rw [hb]; simp [outcomeProb]
      push_neg at h1 h2
      refine ⟨?_, ?_, ?_, ?_, ?_⟩
      · rw [hp]; simp only [best_prob, max_def]; split_ifs <;> linarith
      · intro hc; exact hb
      · intro hc; exfalso; linarith [hc.1]
      · intro hc; exfalso; linarith [hc.1]
      · intro hc; exact hb

/-- C9 (witness): the exact three-way tie reports home_win and its
probability equals the best probability. -/
theorem C9_witness :
    best_outcome (mkTriple 0.3 0.3 0.3) = "home_win" ∧
    outcomeProb (mkTriple 0.3 0.3 0.3) (best_outcome (mkTriple 0.3 0.3 0.3)) =
      best_prob (mkTriple 0.3 0.3 0.3) := by
  have h := C9_best_outcome_ties (mkTriple 0.3 0.3 0.3)
  exact ⟨h.2.2.2.2 ⟨by norm_num [mkTriple], by norm_num [mkTriple]⟩, h.1⟩

/-- The `or 1.0` fallback divisor is never zero. -/
lemma orOne_ne_zero (t : ℚ) : orOne t ≠ 0 := by
  unfold orOne
  split_ifs with h
  · norm_num
  · exact h

/-- C10: the renormalization divisors in the aggregator and the blender are
never zero (the `or 1.0` fallback), and when the three-way sum is exactly 0
(with non-negative inputs) the operations return an all-zero triple instead
of failing. -/
theorem C10_zero_sum_guard (M : ℕ → ℕ → ℚ) (n : ℕ) (p q : PoissonResult) (m : MlProbs)
    (hM : ∀ i j, 0 ≤ M i j)
    (hm : 0 ≤ 0.70 * q.home_win + 0.30 * m.home_win ∧
      0 ≤ 0.70 * q.draw + 0.30 * m.draw ∧ 0 ≤ 0.70 * q.away_win + 0.30 * m.away_win) :
    orOne (homeMass M n + drawMass M n + awayMass M n) ≠ 0 ∧
    orOne (0.70 * q.home_win + 0.30 * m.home_win + (0.70 * q.draw + 0.30 * m.draw)
      + (0.70 * q.away_win + 0.30 * m.away_win)) ≠ 0 ∧
    (homeMass M n + drawMass M n + awayMass M n = 0 →
      (applyDcCorrection p M n).home_win = 0 ∧ (applyDcCorrection p M n).draw = 0 ∧
      (applyDcCorrection p M n).away_win = 0) ∧
    (0.70 * q.home_win + 0.30 * m.home_win + (0.70 * q.draw + 0.30 * m.draw)
        + (0.70 * q.away_win + 0.30 * m.away_win) = 0 →
      (ensembleStep q (some m)).home_win = 0 ∧ (ensembleStep q (some m)).draw = 0 ∧
      (ensembleStep q (some m)).away_win = 0) := by
  refine ⟨orOne_ne_zero _, orOne_ne_zero _, ?_, ?_⟩
  · intro hs
    have h1 : 0 ≤ homeMass M n :=
      Finset.sum_nonneg fun i _ => Finset.sum_nonneg fun j _ => hM i j
    have h2 : 0 ≤ drawMass M n := Finset.sum_nonneg fun i _ => hM i i
    have h3 : 0 ≤ awayMass M n :=
      Finset.sum_nonneg fun i _ => Finset.sum_nonneg fun j _ => hM i j
    have e1 : homeMass M n = 0 := by linarith
    have e2 : drawMass M n = 0 := by linarith
    have e3 : awayMass M n = 0 := by linarith
    simp [applyDcCorrection, outcomeFromMatrix, e1, e2, e3, orOne, roundQ_zero]
  · intro hs
    have e1 : 0.70 * q.home_win + 0.30 * m.home_win = 0 := by
      rcases hm with ⟨a1, a2, a3⟩; linarith
    have e2 : 0.70 * q.draw + 0.30 * m.draw = 0 := by
      rcases hm with ⟨a1, a2, a3⟩; linarith
    have e3 : 0.70 * q.away_win + 0.30 * m.away_win = 0 := by
      rcases hm with ⟨a1, a2, a3⟩; linarith
    simp only [ensembleStep, e1, e2, e3]
    norm_num [orOne, roundQ_zero]

/-- C10 (witness): with the all-zero matrix and all-zero triples the
aggregator and the blender both return the all-zero triple. -/
theorem C10_witness :
    (applyDcCorrection (mkTriple 0 0 0) zeroMatrix 10).home_win = 0 ∧
    (applyDcCorrection (mkTriple 0 0 0) zeroMatrix 10).draw = 0 ∧
    (applyDcCorrection (mkTriple 0 0 0) zeroMatrix 10).away_win = 0 ∧
    (ensembleStep (mkTriple 0 0 0) (some ⟨0, 0, 0⟩)).home_win = 0 ∧
    (ensembleStep (mkTriple 0 0 0) (some ⟨0, 0, 0⟩)).draw = 0 ∧
    (ensembleStep (mkTriple 0 0 0) (some ⟨0, 0, 0⟩)).away_win = 0 := by
  have h := C10_zero_sum_guard zeroMatrix 10 (mkTriple 0 0 0) (mkTriple 0 0 0) ⟨0, 0, 0⟩
    (fun i j => le_refl 0)
    ⟨by norm_num [mkTriple], by norm_num [mkTriple], by norm_num [mkTriple]⟩
  have hz : homeMass zeroMatrix 10 + drawMass zeroMatrix 10 + awayMass zeroMatrix 10 = 0 := by
    simp [homeMass, drawMass, awayMass, zeroMatrix]
  have hb : 0.70 * (mkTriple 0 0 0).home_win + 0.30 * (⟨0, 0, 0⟩ : MlProbs).home_win
      + (0.70 * (mkTriple 0 0 0).draw + 0.30 * (⟨0, 0, 0⟩ : MlProbs).draw)
      + (0.70 * (mkTriple 0 0 0).away_win + 0.30 * (⟨0, 0, 0⟩ : MlProbs).away_win) = 0 := by
    norm_num [mkTriple]
  obtain ⟨g1, g2, g3⟩ := h.2.2.1 hz
  obtain ⟨g4, g5, g6⟩ := h.2.2.2 hb
  exact ⟨g1, g2, g3, g4, g5, g6⟩

/-- Every Poisson pmf cell is strictly positive (the rate is floored at
1e-9). -/
lemma pmfCell_pos (lam : ℝ) (k : ℕ) : 0 < pmfCell lam k := by
  unfold pmfCell
  have h : (0 : ℝ) < max lam 1e-9 := lt_of_lt_of_le (by norm_num) (le_max_right _ _)
  have hf : (0 : ℝ) < (Nat.factorial k : ℝ) := by
    exact_mod_cast Nat.factorial_pos k
  positivity

/-- Every raw outer-product cell is strictly positive. -/
lemma rawMatrix_pos (lh la : ℝ) (i j : ℕ) : 0 < rawMatrix lh la i j :=
  mul_pos (pmfCell_pos lh i) (pmfCell_pos la j)

/-- Every tau-corrected cell is non-negative (corrected cells are floored
at 0, uncorrected cells are positive). -/
lemma correctedMatrix_nonneg (lh la : ℝ) (n : ℕ) (rho : ℝ) (i j : ℕ) :
    0 ≤ correctedMatrix lh la n rho i j := by
  unfold correctedMatrix
  split_ifs
  · exact le_max_iff.mpr (Or.inl (by norm_num))
  · exact (rawMatrix_pos lh la i j).le

/-- With non-negative rates and non-positive rho, the (0,0) cell stays
strictly positive after correction (its tau factor is at least 1). -/
lemma correctedMatrix_zero_zero_pos (lh la rho : ℝ) (n : ℕ)
    (hlh : 0 ≤ lh) (hla : 0 ≤ la) (hr : rho ≤ 0) :
    0 < correctedMatrix lh la n rho 0 0 := by
  unfold correctedMatrix
  have hcond : 0 < min 2 (n + 1) := by omega
  rw [if_pos ⟨hcond, hcond⟩]
  have htau : 1 ≤ tau 0 0 lh la rho := by
    unfold tau
    norm_num
    nlinarith [mul_nonneg hlh hla]
  have : 0 < rawMatrix lh la 0 0 * tau 0 0 lh la rho :=
    mul_pos (rawMatrix_pos lh la 0 0) (lt_of_lt_of_le one_pos htau)
  exact lt_max_of_lt_right this

/-- The post-correction total is strictly positive whenever the rates are
non-negative and rho is non-positive. -/
lemma correctedTotal_pos (lh la rho : ℝ) (n : ℕ)
    (hlh : 0 ≤ lh) (hla : 0 ≤ la) (hr : rho ≤ 0) :
    0 < correctedTotal lh la n rho := by
  have h00 := correctedMatrix_zero_zero_pos lh la rho n hlh hla hr
  apply lt_of_lt_of_le h00
  unfold correctedTotal
  have hmem : (0 : ℕ) ∈ Finset.range (n + 1) := Finset.mem_range.mpr (Nat.succ_pos n)
  calc correctedMatrix lh la n rho 0 0
      ≤ ∑ j in Finset.range (n + 1), correctedMatrix lh la n rho 0 j :=
        Finset.single_le_sum (fun j _ => correctedMatrix_nonneg lh la n rho 0 j) hmem
    _ ≤ ∑ i in Finset.range (n + 1), ∑ j in Finset.range (n + 1),
          correctedMatrix lh la n rho i j :=
        Finset.single_le_sum
          (fun i _ => Finset.sum_nonneg fun j _ => correctedMatrix_nonneg lh la n rho i j)
          hmem

/-- C2: for rates in [0.3, 6.0] and rho in [-0.5, 0], the Dixon–Coles
matrix has non-negative entries and sums exactly to 1 (hence to 1 within
1e-6). -/
theorem C2_dc_matrix_normalized (lh la rho : ℝ) (n : ℕ)
    (hl1 : 0.3 ≤ lh) (hl2 : lh ≤ 6.0) (ha1 : 0.3 ≤ la) (ha2 : la ≤ 6.0)
    (hr1 : -0.5 ≤ rho) (hr2 : rho ≤ 0) :
    (∀ i j, 0 ≤ build_dc_matrix lh la n rho i j) ∧
    (∑ i in Finset.range (n + 1), ∑ j in Finset.range (n + 1),
      build_dc_matrix lh la n rho i j) = 1 ∧
    |(∑ i in Finset.range (n + 1), ∑ j in Finset.range (n + 1),
      build_dc_matrix lh la n rho i j) - 1| ≤ 1e-6 := by
  have hT := correctedTotal_pos lh la rho n (by linarith) (by linarith) hr2
  have hsum : (∑ i in Finset.range (n + 1), ∑ j in Finset.range (n + 1),
      build_dc_matrix lh la n rho i j) = 1 := by
    unfold build_dc_matrix
    simp only [if_pos hT, ← Finset.sum_div]
    exact div_self hT.ne'
  refine ⟨fun i j => ?_, hsum, by rw [hsum]; norm_num⟩
  unfold build_dc_matrix
  rw [if_pos hT]
  exact div_nonneg (correctedMatrix_nonneg lh la n rho i j) hT.le

/-- C2 (witness): normalization at rates 1 and 1 with the default rho. -/
theorem C2_witness :
    ((0.3 : ℝ) ≤ 1 ∧ (1 : ℝ) ≤ 6.0 ∧ (-0.5 : ℝ) ≤ -0.13 ∧ (-0.13 : ℝ) ≤ 0) ∧
    (∀ i j, 0 ≤ build_dc_matrix 1 1 10 (-0.13) i j) ∧
    (∑ i in Finset.range 11, ∑ j in Finset.range 11,
      build_dc_matrix 1 1 10 (-0.13) i j) = 1 := by
  have h := C2_dc_matrix_normalized 1 1 (-0.13) 10 (by norm_num) (by norm_num)
    (by norm_num) (by norm_num) (by norm_num) (by norm_num)
  exact ⟨⟨by norm_num, by norm_num, by norm_num, by norm_num⟩, h.1, h.2.1⟩

/-- C3: the correction multiplies exactly the four low-score cells by their
tau factors with a floor at 0, leaves every other cell untouched before
renormalization, divides the whole matrix by the new total when it is
positive and skips the division when the total is 0. -/
theorem C3_tau_correction_structure (lh la rho : ℝ) (n : ℕ) (hn : 1 ≤ n) :
    correctedMatrix lh la n rho 0 0 =
      max 0 (rawMatrix lh la 0 0 * (1 - lh * la * rho)) ∧
    correctedMatrix lh la n rho 0 1 =
      max 0 (rawMatrix lh la 0 1 * (1 + lh * rho)) ∧
    correctedMatrix lh la n rho 1 0 =
      max 0 (rawMatrix lh la 1 0 * (1 + la * rho)) ∧
    correctedMatrix lh la n rho 1 1 =
      max 0 (rawMatrix lh la 1 1 * (1 - rho)) ∧
    (∀ i j, ¬(i ≤ 1 ∧ j ≤ 1) → correctedMatrix lh la n rho i j = rawMatrix lh la i j) ∧
    (0 < correctedTotal lh la n rho → ∀ i j, build_dc_matrix lh la n rho i j =
      correctedMatrix lh la n rho i j / correctedTotal lh la n rho) ∧
    (correctedTotal lh la n rho = 0 → ∀ i j,
      build_dc_matrix lh la n rho i j = correctedMatrix lh la n rho i j) := by
  have hmin : min 2 (n + 1) = 2 := by omega
  refine ⟨?_, ?_, ?_, ?_, ?_, ?_, ?_⟩
  · unfold correctedMatrix tau; rw [hmin]; norm_num
  · unfold correctedMatrix tau; rw [hmin]; norm_num
  · unfold correctedMatrix tau; rw [hmin]; norm_num
  · unfold correctedMatrix tau; rw [hmin]; norm_num
  · intro i j hij
    unfold correctedMatrix
    rw [hmin, if_neg (by omega)]
  · intro hT i j
    unfold build_dc_matrix
    rw [if_pos hT]
  · intro hT i j
    unfold build_dc_matrix
    rw [if_neg (by rw [hT]; norm_num)]

/-- C3 (witness): the four corrected cells at the spec example
(rates 1.5 and 1.15, rho −0.13, 11×11 matrix). -/
theorem C3_witness :
    ((1 : ℕ) ≤ 10) ∧
    (correctedMatrix 1.5 1.15 10 (-0.13) 0 0 =
      max 0 (rawMatrix 1.5 1.15 0 0 * (1 - 1.5 * 1.15 * (-0.13))) ∧
    correctedMatrix 1.5 1.15 10 (-0.13) 0 1 =
      max 0 (rawMatrix 1.5 1.15 0 1 * (1 + 1.5 * (-0.13))) ∧
    correctedMatrix 1.5 1.15 10 (-0.13) 1 0 =
      max 0 (rawMatrix 1.5 1.15 1 0 * (1 + 1.15 * (-0.13))) ∧
    correctedMatrix 1.5 1.15 10 (-0.13) 1 1 =
      max 0 (rawMatrix 1.5 1.15 1 1 * (1 - (-0.13)))) := by
  have h := C3_tau_correction_structure 1.5 1.15 (-0.13) 10 (by norm_num)
  exact ⟨by norm_num, h.1, h.2.1, h.2.2.1, h.2.2.2.1⟩

/-- At rho = 0 every tau factor is 1. -/
lemma tau_rho_zero (x y : ℕ) (lh la : ℝ) : tau x y lh la 0 = 1 := by
  unfold tau
  split_ifs <;> ring

/-- At rho = 0 the correction loop is the identity. -/
lemma correctedMatrix_rho_zero (lh la : ℝ) (n : ℕ) (i j : ℕ) :
    correctedMatrix lh la n 0 i j = rawMatrix lh la i j := by
  unfold correctedMatrix
  split_ifs with h
  · rw [tau_rho_zero, mul_one]
    exact max_eq_right (le_trans (by norm_num) (rawMatrix_pos lh la i j).le)
  · rfl

/-- At rho = 0 the post-correction total is the raw truncated total. -/
lemma correctedTotal_rho_zero (lh la : ℝ) (n : ℕ) :
    correctedTotal lh la n 0 = rawTotal lh la n := by
  unfold correctedTotal rawTotal
  exact Finset.sum_congr rfl fun i _ => Finset.sum_congr rfl fun j _ =>
    correctedMatrix_rho_zero lh la n i j

/-- The raw truncated total is strictly positive. -/
lemma rawTotal_pos (lh la : ℝ) (n : ℕ) : 0 < rawTotal lh la n := by
  unfold rawTotal
  refine Finset.sum_pos (fun i _ => Finset.sum_pos (fun j _ => rawMatrix_pos lh la i j) ?_) ?_
  · exact Finset.nonempty_range_succ
  · exact Finset.nonempty_range_succ

/-- With rho = 0 the returned matrix is the raw matrix divided by its
truncated total. -/
lemma build_dc_rho_zero (lh la : ℝ) (n : ℕ) (i j : ℕ) :
    build_dc_matrix lh la n 0 i j = rawMatrix lh la i j / rawTotal lh la n := by
  unfold build_dc_matrix
  rw [correctedTotal_rho_zero, correctedMatrix_rho_zero, if_pos (rawTotal_pos lh la n)]

/-- Closed form of the truncated pmf sum at rate 1: the partial exponential
series with 11 terms. -/
lemma pmf_one_sum_eq :
    (∑ k in Finset.range 11, pmfCell 1 k) = Real.exp (-1) * (9864101 / 3628800) := by
  have hm : max (1 : ℝ) 1e-9 = 1 := max_eq_left (by norm_num)
  simp only [pmfCell, hm, one_pow]
  simp [Finset.sum_range_succ, Nat.factorial]
  ring

/-- The truncated pmf sum at rate 1 is positive. -/
lemma pmf_one_sum_pos : 0 < ∑ k in Finset.range 11, pmfCell 1 k :=
  Finset.sum_pos (fun k _ => pmfCell_pos 1 k) Finset.nonempty_range_succ

/-- The truncated pmf sum at rate 1 loses mass: it is strictly below 1. -/
lemma pmf_one_sum_lt_one : (∑ k in Finset.range 11, pmfCell 1 k) < 1 := by
  rw [pmf_one_sum_eq, Real.exp_neg, inv_mul_eq_div, div_lt_one (Real.exp_pos 1)]
  linarith [Real.exp_one_gt_d9]

/-- The raw truncated total at rates (1, 1) is strictly below 1. -/
lemma rawTotal_one_lt_one : rawTotal 1 1 10 < 1 := by
  have he : rawTotal 1 1 10 =
      (∑ k in Finset.range 11, pmfCell 1 k) * (∑ k in Finset.range 11, pmfCell 1 k) := by
    unfold rawTotal rawMatrix
    exact (Finset.sum_mul_sum _ _ _ _).symm
  rw [he]
  nlinarith [pmf_one_sum_pos, pmf_one_sum_lt_one]

/-- C4 (counterexample): at rho = 0 and rates (1, 1) the returned (0,0)
entry differs from the raw independent-Poisson entry, because the final
renormalization divides by the truncated total, which is strictly below
1. -/
theorem C4_counterexample : build_dc_matrix 1 1 10 0 0 0 ≠ rawMatrix 1 1 0 0 := by
  rw [build_dc_rho_zero]
  have hp := rawMatrix_pos 1 1 0 0
  have hT0 := rawTotal_pos 1 1 10
  have hT1 := rawTotal_one_lt_one
  intro heq
  rw [div_eq_iff hT0.ne'] at heq
  nlinarith [mul_lt_mul_of_pos_left hT1 hp]

/-- C4 (amended): with rho = 0 the tau correction itself is a no-op, but
the final renormalization still applies, so the returned matrix equals the
raw independent-Poisson matrix divided by its truncated total mass
(proportional to, not equal to, the raw matrix). -/
theorem C4_rho_zero_normalized_raw (lh la : ℝ) (n : ℕ) (i j : ℕ) :
    build_dc_matrix lh la n 0 i j = rawMatrix lh la i j / rawTotal lh la n :=
  build_dc_rho_zero lh la n i j

/-- Values clipped to [0.3, 6.0] lie in [0.3, 6.0]. -/
lemma clip_bounds (x : ℝ) : 0.3 ≤ clip x 0.3 6.0 ∧ clip x 0.3 6.0 ≤ 6.0 := by
  unfold clip
  exact ⟨le_min (le_max_right _ _) (by norm_num), min_le_right _ _⟩

/-- The pre-nudge rates are clipped to [0.3, 6.0]. -/
lemma lambdasClipped_bounds (home away : TeamStats) (weather : WeatherData)
    (neutral : Bool) :
    0.3 ≤ (lambdasClipped home away weather neutral).1 ∧
    (lambdasClipped home away weather neutral).1 ≤ 6.0 ∧
    0.3 ≤ (lambdasClipped home away weather neutral).2 ∧
    (lambdasClipped home away weather neutral).2 ≤ 6.0 := by
  unfold lambdasClipped
  dsimp only
  exact ⟨(clip_bounds _).1, (clip_bounds _).2, (clip_bounds _).1, (clip_bounds _).2⟩

/-- C1 (amended): the clip to [0.3, 6.0] is applied before the head-to-head
nudge; the nudge (±12% home, ∓6% away) is the last multiplicative step, so
the internal post-nudge rates lie in [0.264, 6.72] (home) and
[0.282, 6.36] (away) rather than in [0.3, 6.0]. -/
theorem C1_lambda_bounds (home away : TeamStats) (weather : WeatherData)
    (h2h : H2H) (neutral : Bool) :
    (0.3 ≤ (lambdasClipped home away weather neutral).1 ∧
      (lambdasClipped home away weather neutral).1 ≤ 6.0) ∧
    (0.3 ≤ (lambdasClipped home away weather neutral).2 ∧
      (lambdasClipped home away weather neutral).2 ≤ 6.0) ∧
    (0.264 ≤ (lambdasFinal home away weather h2h neutral).1 ∧
      (lambdasFinal home away weather h2h neutral).1 ≤ 6.72) ∧
    (0.282 ≤ (lambdasFinal home away weather h2h neutral).2 ∧
      (lambdasFinal home away weather h2h neutral).2 ≤ 6.36) := by
  obtain ⟨b1, b2, b3, b4⟩ := lambdasClipped_bounds home away weather neutral
  refine ⟨⟨b1, b2⟩, ⟨b3, b4⟩, ?_, ?_⟩ <;>
    · unfold lambdasFinal
      dsimp only
      split_ifs <;> (try dsimp only) <;> constructor <;> nlinarith

/-- The logistic rating expectation is non-negative at equal ratings. -/
lemma elo_expected_home_nonneg : 0 ≤ elo_expected_home 1500 1500 := by
  unfold elo_expected_home
  positivity

/-- C1 (counterexample): a home side averaging 100 goals against an
average defence on a neutral field, with a head-to-head record of 3
meetings all won by the home side, gets a returned lambda_h of 6.72 — the
clip runs before the head-to-head nudge, so the returned rate leaves
[0.3, 6.0]. -/
theorem C1_counterexample :
    6.0 < (calculate_poisson_lambdas ⟨1500, 50, 100, 1.4⟩ ⟨1500, 50, 1.4, 1.15⟩
      ⟨0⟩ ⟨3, 100⟩ true).1 := by
  have hE := elo_expected_home_nonneg
  have hclip : (lambdasClipped ⟨1500, 50, 100, 1.4⟩ ⟨1500, 50, 1.4, 1.15⟩ ⟨0⟩ true).1
      = 6.0 := by
    unfold lambdasClipped
    dsimp only
    have hmax1 : max (100 : ℝ) 0.3 = 100 := by norm_num
    have hmax2 : max (1.15 : ℝ) 0.3 = 1.15 := by norm_num
    rw [hmax1, hmax2, if_pos rfl]
    unfold form_adjustment LEAGUE_AVG_HOME LEAGUE_AVG_AWAY clip
    rw [max_eq_left (by nlinarith), min_eq_right (by nlinarith)]
  have hfin : (lambdasFinal ⟨1500, 50, 100, 1.4⟩ ⟨1500, 50, 1.4, 1.15⟩ ⟨0⟩ ⟨3, 100⟩ true).1
      = 6.72 := by
    unfold lambdasFinal
    dsimp only
    rw [if_pos (by norm_num), if_pos (by norm_num)]
    dsimp only
    rw [hclip]
    norm_num
  unfold calculate_poisson_lambdas
  dsimp only
  rw [hfin]
  unfold roundR
  rw [show (6.72 : ℝ) * 10 ^ 2 = ((672 : ℤ) : ℝ) by norm_num, round_intCast]
  norm_num

end SportAnalyzer
